import Mathlib

/-!
Verification development for the MOBIO metadata query layer
(`xbob/db/mobio/query.py`).

The relational store (built from the schema in the `models` module) is
embedded as in-memory lists of rows; SQLAlchemy joins become `flatMap`
over matching rows, `filter(...)` becomes `List.filter`, `order_by`
becomes an insertion sort on the same key columns, and `list(set(...))`
becomes `List.dedup`.  Python exceptions are modelled with `Except`.
-/

/-- A row of the `Client` table: id, gender, group, and the names of the
subworlds the client is associated with (the `Client.subworld`
relationship). -/
structure Client where
  id : Nat
  gender : String
  sgroup : String
  subworld : List String
deriving DecidableEq

/-- A row of the `File` table, together with its association rows:
`subworld` holds the names of the subworlds linked through
`File.subworld`, `protocol_purposes` the ids of the linked
`ProtocolPurpose` rows, and `tmodels` the ids of the linked `TModel`
rows. -/
structure File where
  id : Nat
  client_id : Nat
  session_id : Nat
  speech_type : String
  shot_id : Nat
  device : String
  path : String
  subworld : List String
  protocol_purposes : List Nat
  tmodels : List String
deriving DecidableEq

/-- A row of the `Protocol` table. -/
structure Protocol where
  id : Nat
  name : String
deriving DecidableEq

/-- A row of the `ProtocolPurpose` table: protocol, group and purpose. -/
structure ProtocolPurpose where
  id : Nat
  protocol_id : Nat
  sgroup : String
  purpose : String
deriving DecidableEq

/-- A row of the `Subworld` table. -/
structure Subworld where
  name : String
deriving DecidableEq

/-- A row of the `TModel` table: a T-norm model id linked to one client.
The id is a string, as witnessed by the `isinstance(model_ids, (str,
unicode))` normalization in `tobjects`. -/
structure TModel where
  id : String
  client_id : Nat
deriving DecidableEq

/-- The connected read-only relational store behind `self.session`. -/
structure Store where
  clients : List Client
  files : List File
  protocols : List Protocol
  protocolPurposes : List ProtocolPurpose
  subworlds : List Subworld
  tmodels : List TModel
deriving DecidableEq

/-- The `Database` object: `session` is `none` when the storage artifact
is missing (`connect` leaves `self.session = None`). -/
structure Database where
  session : Option Store
deriving DecidableEq

/-- Modelled from the spec: `INFO.name()` from the absent `driver`
module — the database name used in the unavailable-store message. -/
def INFO_name : String := "mobio"

/-- Modelled from the spec: `SQLITE_FILE = INFO.files()[0]` from the
absent `driver` module — the expected location of the storage
artifact. -/
def SQLITE_FILE : String := "mobio.sql3"

/-- The two error kinds of the spec plus the two accidental run-time
faults the code can produce (`.one()` lookups and the uninitialised
`retval` in `reverse`). -/
inductive Err where
  | unavailableStore (dbName : String) (location : String)
  | invalidArgument (axis : String) (value : String) (allowed : List String)
  | noResultFound
  | multipleResultsFound
  | nameError (name : String)
deriving DecidableEq

/-- The message carried by each raised error, following the format
strings in the source. -/
def Err.message : Err → String
  | .unavailableStore n loc =>
      "Database " ++ n ++ " cannot be found at expected location " ++ loc ++
        ". Create it and then try re-connecting using Database.connect()"
  | .invalidArgument axis v allowed =>
      "Invalid " ++ axis ++ " " ++ v ++ ". Valid values are " ++ toString allowed ++
        ", or lists/tuples of those"
  | .noResultFound => "No row was found for one()"
  | .multipleResultsFound => "Multiple rows were found for one()"
  | .nameError n => "name " ++ n ++ " is not defined"

deriving instance DecidableEq for Except

/-- Error-propagating sequencing (the Python exception flow): run `x`
and feed its value to `f`, short-circuiting on a raised error. -/
def ebind {α β : Type} (x : Except Err α) (f : α → Except Err β) : Except Err β :=
  match x with
  | .error e => .error e
  | .ok a => f a

/-- A caller-supplied selector argument: Python `None`, a plain string,
or a list/tuple of strings. -/
inductive Arg where
  | absent
  | scalar (s : String)
  | seq (l : List String)
deriving DecidableEq

/-- The loop of `__check_validity__` over an already-sequenced value:
empty values give the default, the first element outside `valid`
raises, otherwise the sequence is returned unchanged. -/
def check_list (xs : List String) (obj : String) (valid default : List String) :
    Except Err (List String) :=
  if xs = [] then .ok default
  else
    match xs.find? (fun k => ! valid.contains k) with
    | some k => .error (.invalidArgument obj k valid)
    | none => .ok xs

/-- `Database.__check_validity__(l, obj, valid, default)`: falsy values
(`None`, `''`, empty sequences) give the default; a scalar is wrapped
into a one-element sequence and re-checked; sequences are checked
element-wise against `valid`. -/
def check_validity : Arg → String → List String → List String → Except Err (List String)
  | .absent, _, _, default => .ok default
  | .scalar s, obj, valid, default =>
      if s = "" then .ok default else check_list [s] obj valid default
  | .seq xs, obj, valid, default => check_list xs obj valid default

/-- Modelled from the spec: `Client.gender_choices` from the absent
`models` module — the gender enumeration male|female. -/
def gender_choices : List String := ["female", "male"]

/-- Modelled from the spec: `ProtocolPurpose.group_choices` from the
absent `models` module — the group enumeration world|dev|eval. -/
def group_choices : List String := ["dev", "eval", "world"]

/-- Modelled from the spec: `ProtocolPurpose.purpose_choices` from the
absent `models` module — the purpose enumeration enrol|probe. -/
def purpose_choices : List String := ["enrol", "probe"]

/-- Modelled from the spec: `File.make_path(prefix, suffix)` from the
absent `models` module — the stored path stem with the prefix and
suffix joined around it (§4.4: simple string join). -/
def File.make_path (f : File) (pre suff : String) : String :=
  pre ++ f.path ++ suff

def Store.protocol_names (s : Store) : List String :=
  s.protocols.map fun p => p.name

def Store.subworld_names (s : Store) : List String :=
  s.subworlds.map fun k => k.name

/-- `is_valid`: whether a session is open. -/
def Database.is_valid (db : Database) : Bool :=
  db.session.isSome

/-- `assert_validity`: raise when the backend is not available, else
hand over the open session. -/
def Database.assert_validity (db : Database) : Except Err Store :=
  match db.session with
  | none => .error (.unavailableStore INFO_name SQLITE_FILE)
  | some s => .ok s

def Database.groups (_db : Database) : List String := group_choices

def Database.genders (_db : Database) : List String := gender_choices

def Database.purposes (_db : Database) : List String := purpose_choices

def Database.subworlds (db : Database) : Except Err (List Subworld) :=
  ebind db.assert_validity fun s => .ok s.subworlds

def Database.subworld_names (db : Database) : Except Err (List String) :=
  ebind db.assert_validity fun s => .ok s.subworld_names

def Database.has_subworld (db : Database) (name : String) : Except Err Bool :=
  ebind db.assert_validity fun s =>
    .ok (!(s.subworlds.filter (fun k => k.name == name)).isEmpty)

def Database.protocols (db : Database) : Except Err (List Protocol) :=
  ebind db.assert_validity fun s => .ok s.protocols

def Database.protocol_names (db : Database) : Except Err (List String) :=
  ebind db.assert_validity fun s => .ok s.protocol_names

def Database.has_protocol (db : Database) (name : String) : Except Err Bool :=
  ebind db.assert_validity fun s =>
    .ok (!(s.protocols.filter (fun k => k.name == name)).isEmpty)

/-- `protocol(name)`: `.one()` on the filtered query. -/
def Database.protocol (db : Database) (name : String) : Except Err Protocol :=
  ebind db.assert_validity fun s =>
    match s.protocols.filter (fun k => k.name == name) with
    | [p] => .ok p
    | [] => .error .noResultFound
    | _ => .error .multipleResultsFound

def Database.protocol_purposes (db : Database) : Except Err (List ProtocolPurpose) :=
  ebind db.assert_validity fun s => .ok s.protocolPurposes

def Database.has_client_id (db : Database) (id : Nat) : Except Err Bool :=
  ebind db.assert_validity fun s =>
    .ok (!(s.clients.filter (fun c => c.id == id)).isEmpty)

/-- `client(id)`: `.one()` on the filtered query. -/
def Database.client (db : Database) (id : Nat) : Except Err Client :=
  ebind db.assert_validity fun s =>
    match s.clients.filter (fun c => c.id == id) with
    | [c] => .ok c
    | [] => .error .noResultFound
    | _ => .error .multipleResultsFound

/-- `get_client_id_from_model_id`: the identity (model ids are client
ids). -/
def Database.get_client_id_from_model_id (_db : Database) (model_id : Nat) : Nat :=
  model_id

/-- `order_by(Client.id)`. -/
def clientLe (a b : Client) : Prop := a.id ≤ b.id

instance : DecidableRel clientLe := fun a b =>
  inferInstanceAs (Decidable (a.id ≤ b.id))

/-- `clients(protocol, groups, subworld, gender)`: conjunctive
narrowing of the `Client` table, ordered by id.  The subworld axis is
an association join and may repeat a client once per matching
subworld, exactly like the SQL join. -/
def Database.clients (db : Database) (protocol groups subworld gender : Arg) :
    Except Err (List Client) :=
  ebind db.assert_validity fun s =>
  ebind (check_validity protocol "protocol" s.protocol_names []) fun protocol =>
  ebind (check_validity groups "group" group_choices []) fun groups =>
  ebind (check_validity subworld "subworld" s.subworld_names []) fun subworld =>
  ebind (check_validity gender "gender" gender_choices []) fun gender =>
  let q := s.clients
  let q := if protocol ≠ [] then q.filter (fun c => protocol.contains c.gender) else q
  let q := if groups ≠ [] then q.filter (fun c => groups.contains c.sgroup) else q
  let q := if subworld ≠ [] then
      q.flatMap (fun c => (c.subworld.filter (fun n => subworld.contains n)).map fun _ => c)
    else q
  let q := if gender ≠ [] then q.filter (fun c => gender.contains c.gender) else q
  .ok (List.insertionSort clientLe q)

/-- `models` delegates to `clients`. -/
def Database.models (db : Database) (protocol groups subworld gender : Arg) :
    Except Err (List Client) :=
  db.clients protocol groups subworld gender

/-- `tclients`: validate all four axes (`groups` against dev/eval
only), then query `clients` with the group forced to `'world'`.  In
the source `subworld` defaults to `'onethird'`; defaults are passed
explicitly here. -/
def Database.tclients (db : Database) (protocol groups subworld gender : Arg) :
    Except Err (List Client) :=
  ebind db.protocol_names fun VALID_PROTOCOLS =>
  ebind db.subworld_names fun VALID_SUBWORLDS =>
  ebind (check_validity protocol "protocol" VALID_PROTOCOLS []) fun protocol =>
  ebind (check_validity groups "group" ["dev", "eval"] []) fun _groups =>
  ebind (check_validity subworld "subworld" VALID_SUBWORLDS []) fun subworld =>
  ebind (check_validity gender "gender" gender_choices []) fun gender =>
  db.clients (Arg.seq protocol) (Arg.scalar "world") (Arg.seq subworld) (Arg.seq gender)

/-- `zclients`: validate `groups` against dev/eval, then query
`clients` with the group forced to `'world'`. -/
def Database.zclients (db : Database) (protocol groups subworld gender : Arg) :
    Except Err (List Client) :=
  ebind db.assert_validity fun _s =>
  ebind (check_validity groups "group" ["dev", "eval"] []) fun _groups =>
  db.clients protocol (Arg.scalar "world") subworld gender

/-- `order_by(File.client_id, File.session_id, File.speech_type,
File.shot_id, File.device)` as a boolean lexicographic comparison. -/
def fileLeB (a b : File) : Bool :=
  if a.client_id ≠ b.client_id then decide (a.client_id < b.client_id)
  else if a.session_id ≠ b.session_id then decide (a.session_id < b.session_id)
  else if a.speech_type ≠ b.speech_type then decide (a.speech_type < b.speech_type)
  else if a.shot_id ≠ b.shot_id then decide (a.shot_id < b.shot_id)
  else decide (a.device ≤ b.device)

def fileLe (a b : File) : Prop := fileLeB a b = true

instance : DecidableRel fileLe := fun a b =>
  inferInstanceAs (Decidable (fileLeB a b = true))

/-- `order_by(TModel.id)`. -/
def tmodelLe (a b : TModel) : Prop := a.id ≤ b.id

instance : DecidableRel tmodelLe := fun a b =>
  inferInstanceAs (Decidable (a.id ≤ b.id))

/-- `query(File).join(Client)`: one row per (file, matching client)
pair. -/
def Store.fileClientRows (s : Store) : List (File × Client) :=
  s.files.flatMap fun f =>
    (s.clients.filter (fun c => c.id == f.client_id)).map fun c => (f, c)

/-- `query(File).join(Client).join(ProtocolPurpose,
File.protocol_purposes).join(Protocol)`: one row per matching
(file, client, protocol purpose, protocol) tuple. -/
def Store.fcppRows (s : Store) :
    List (File × Client × ProtocolPurpose × Protocol) :=
  s.files.flatMap fun f =>
    (s.clients.filter (fun c => c.id == f.client_id)).flatMap fun c =>
      (s.protocolPurposes.filter (fun pp => f.protocol_purposes.contains pp.id)).flatMap fun pp =>
        (s.protocols.filter (fun pr => pr.id == pp.protocol_id)).map fun pr => (f, c, pp, pr)

/-- `query(TModel).join(Client)`. -/
def Store.tmodelClientRows (s : Store) : List (TModel × Client) :=
  s.tmodels.flatMap fun t =>
    (s.clients.filter (fun c => c.id == t.client_id)).map fun c => (t, c)

/-- The `'world' in groups` branch of `objects`: world-group files,
optionally narrowed by the file's subworld association, by gender, and
by `model_ids` interpreted as client ids. -/
def worldBranch (s : Store) (subworld gender : List String) (mids : List Nat) :
    List File :=
  let q := s.fileClientRows.filter fun r => r.2.sgroup == "world"
  let q := if subworld ≠ [] then
      q.flatMap (fun r => (r.1.subworld.filter (fun n => subworld.contains n)).map fun _ => r)
    else q
  let q := if gender ≠ [] then q.filter (fun r => gender.contains r.2.gender) else q
  let q := if mids ≠ [] then q.filter (fun r => mids.contains r.1.client_id) else q
  List.insertionSort fileLe (q.map Prod.fst)

/-- The `'enrol' in purposes` branch of `objects`. -/
def enrolBranch (s : Store) (protocol groups gender : List String) (mids : List Nat) :
    List File :=
  let q := s.fcppRows.filter fun r =>
    protocol.contains r.2.2.2.name && groups.contains r.2.2.1.sgroup &&
      (r.2.2.1.purpose == "enrol")
  let q := if gender ≠ [] then q.filter (fun r => gender.contains r.2.1.gender) else q
  let q := if mids ≠ [] then q.filter (fun r => mids.contains r.2.1.id) else q
  List.insertionSort fileLe (q.map Prod.fst)

/-- The `'client' in classes` probe branch of `objects`. -/
def clientProbeBranch (s : Store) (protocol groups gender : List String) (mids : List Nat) :
    List File :=
  let q := s.fcppRows.filter fun r =>
    protocol.contains r.2.2.2.name && groups.contains r.2.2.1.sgroup &&
      (r.2.2.1.purpose == "probe")
  let q := if gender ≠ [] then q.filter (fun r => gender.contains r.2.1.gender) else q
  let q := if mids ≠ [] then q.filter (fun r => mids.contains r.2.1.id) else q
  List.insertionSort fileLe (q.map Prod.fst)

/-- The `'impostor' in classes` probe branch of `objects`: the
client-id exclusion is applied only when exactly one model id was
supplied. -/
def impostorBranch (s : Store) (protocol groups gender : List String) (mids : List Nat) :
    List File :=
  let q := s.fcppRows.filter fun r =>
    protocol.contains r.2.2.2.name && groups.contains r.2.2.1.sgroup &&
      (r.2.2.1.purpose == "probe")
  let q := if gender ≠ [] then q.filter (fun r => gender.contains r.2.1.gender) else q
  let q := if mids.length == 1 then q.filter (fun r => !(mids.contains r.1.client_id)) else q
  List.insertionSort fileLe (q.map Prod.fst)

/-- The branch union of `objects` after validation, with the final
`list(set(retval))` de-duplication pass. -/
def objectsCore (s : Store) (protocol purposes groups classes subworld gender : List String)
    (mids : List Nat) : List File :=
  ((if groups.contains "world" then worldBranch s subworld gender mids else []) ++
    (if groups.contains "dev" || groups.contains "eval" then
      (if purposes.contains "enrol" then enrolBranch s protocol groups gender mids else []) ++
        (if purposes.contains "probe" then
          (if classes.contains "client" then clientProbeBranch s protocol groups gender mids
            else []) ++
            (if classes.contains "impostor" then impostorBranch s protocol groups gender mids
              else [])
          else [])
      else [])).dedup

/-- The `model_ids` argument of `objects`: Python `None`, a single
non-iterable (integer) id, or a list/tuple of ids. -/
inductive ModelIds where
  | none
  | scalar (m : Nat)
  | seq (l : List Nat)
deriving DecidableEq

/-- The normalization at the top of `objects`: `None` becomes the
empty tuple and a non-iterable id is wrapped into a 1-tuple. -/
def normalizeModelIds : ModelIds → List Nat
  | .none => []
  | .scalar m => [m]
  | .seq l => l

/-- `objects(protocol, purposes, model_ids, groups, classes, subworld,
gender)`: validate each axis (full-axis defaults for protocol,
purposes, groups and classes; no-filter defaults for subworld and
gender), normalize `model_ids`, then union the matching branches and
de-duplicate. -/
def Database.objects (db : Database) (protocol purposes : Arg) (model_ids : ModelIds)
    (groups classes subworld gender : Arg) : Except Err (List File) :=
  ebind db.assert_validity fun s =>
  ebind db.protocol_names fun VALID_PROTOCOLS =>
  ebind db.subworld_names fun VALID_SUBWORLDS =>
  ebind (check_validity protocol "protocol" VALID_PROTOCOLS VALID_PROTOCOLS) fun protocol =>
  ebind (check_validity purposes "purpose" purpose_choices purpose_choices) fun purposes =>
  ebind (check_validity groups "group" group_choices group_choices) fun groups =>
  ebind (check_validity classes "class" ["client", "impostor"] ["client", "impostor"]) fun classes =>
  ebind (check_validity subworld "subworld" VALID_SUBWORLDS []) fun subworld =>
  ebind (check_validity gender "gender" gender_choices []) fun gender =>
  .ok (objectsCore s protocol purposes groups classes subworld gender
        (normalizeModelIds model_ids))

/-- `tmodels`: validates protocol and groups but uses neither; the
query is `TModel` joined to `Client`, narrowed by the client's
subworld association and by gender, ordered by `TModel.id`.  The
`return self.tclients(...)` line after the first `return` in the
source is unreachable and is dropped. -/
def Database.tmodels (db : Database) (protocol groups subworld gender : Arg) :
    Except Err (List TModel) :=
  ebind db.assert_validity fun s =>
  ebind db.protocol_names fun VALID_PROTOCOLS =>
  ebind db.subworld_names fun VALID_SUBWORLDS =>
  ebind (check_validity protocol "protocol" VALID_PROTOCOLS []) fun _protocol =>
  ebind (check_validity groups "group" ["dev", "eval"] []) fun _groups =>
  ebind (check_validity subworld "subworld" VALID_SUBWORLDS []) fun subworld =>
  ebind (check_validity gender "gender" gender_choices []) fun gender =>
  let q := s.tmodelClientRows
  let q := if subworld ≠ [] then
      q.flatMap (fun r => (r.2.subworld.filter (fun n => subworld.contains n)).map fun _ => r)
    else q
  let q := if gender ≠ [] then q.filter (fun r => gender.contains r.2.gender) else q
  .ok (List.insertionSort tmodelLe (q.map Prod.fst))

/-- The `model_ids` argument of `tobjects`: `None`, a single string
id, or a list/tuple of string ids. -/
inductive TModelIds where
  | none
  | scalar (m : String)
  | seq (l : List String)
deriving DecidableEq

def normalizeTModelIds : TModelIds → List String
  | .none => []
  | .scalar m => [m]
  | .seq l => l

/-- `tobjects`: files joined to `TModel`, narrowed by the file's
subworld association, by T-model id and by gender (via `Client`);
ordered like `objects`, without a de-duplication pass. -/
def Database.tobjects (db : Database) (protocol : Arg) (model_ids : TModelIds)
    (groups subworld gender : Arg) : Except Err (List File) :=
  ebind db.assert_validity fun s =>
  ebind db.protocol_names fun VALID_PROTOCOLS =>
  ebind db.subworld_names fun VALID_SUBWORLDS =>
  ebind (check_validity protocol "protocol" VALID_PROTOCOLS VALID_PROTOCOLS) fun _protocol =>
  ebind (check_validity groups "group" ["dev", "eval"] []) fun _groups =>
  ebind (check_validity subworld "subworld" VALID_SUBWORLDS []) fun subworld =>
  ebind (check_validity gender "gender" gender_choices []) fun gender =>
  let mids := normalizeTModelIds model_ids
  let q := if subworld ≠ [] then
      s.files.flatMap (fun f => (f.subworld.filter (fun n => subworld.contains n)).map fun _ => f)
    else s.files
  let q := q.flatMap fun f =>
    (s.tmodels.filter (fun t => f.tmodels.contains t.id)).map fun t => (f, t)
  let q := if mids ≠ [] then q.filter (fun r => mids.contains r.2.id) else q
  let q := if gender ≠ [] then
      q.flatMap (fun r =>
        (s.clients.filter (fun c => c.id == r.1.client_id && gender.contains c.gender)).map
          fun _ => r)
    else q
  .ok (List.insertionSort fileLe (q.map Prod.fst))

/-- `zobjects`: validate `groups` against dev/eval, then re-dispatch
to `objects` with purposes/classes defaulted and groups forced to
`'world'`. -/
def Database.zobjects (db : Database) (protocol : Arg) (model_ids : ModelIds)
    (groups subworld gender : Arg) : Except Err (List File) :=
  ebind db.assert_validity fun _s =>
  ebind (check_validity groups "group" ["dev", "eval"] []) fun _groups =>
  db.objects protocol Arg.absent model_ids (Arg.scalar "world") Arg.absent subworld gender

/-- `paths(ids, prefix, suffix)`: look up the files whose id is in
`ids`, then emit, in input order and with input multiplicity, the
constructed path of every looked-up file matching each requested
id. -/
def Database.paths (db : Database) (ids : List Nat) (pre suff : String) :
    Except Err (List String) :=
  ebind db.assert_validity fun s =>
  let fobj := s.files.filter fun f => ids.contains f.id
  .ok (ids.flatMap fun p =>
    (fobj.filter fun k => k.id == p).map fun k => k.make_path pre suff)

/-- `reverse(paths)` as written in the source: the accumulator
`retval` is read (`retval.extend(...)`, or `return retval` on empty
input) without ever being initialised, so every call fails with
`NameError: name 'retval' is not defined` after the validity check. -/
def Database.reverse (db : Database) (paths : List String) : Except Err (List Nat) :=
  ebind db.assert_validity fun s =>
  let _fobj := s.files.filter fun f => paths.contains f.path
  .error (.nameError "retval")

/-- Modelled from the spec: `idsForPaths(paths)` (§4.4) — for each
queried stem, collect the ids of the files whose stored stem equals
it; zero matches yield an empty list, not an error.  This is the
behaviour `reverse` documents but does not implement. -/
def reverse_spec (db : Database) (paths : List String) : Except Err (List Nat) :=
  ebind db.assert_validity fun s =>
  let fobj := s.files.filter fun f => paths.contains f.path
  .ok (paths.flatMap fun p => (fobj.filter fun k => k.path == p).map fun k => k.id)

/-- A small concrete store used to witness the theorems: one world
client with a world file and a T-norm model, two dev clients with
probe files, one dev enrol file, one eval client. -/
def client1 : Client :=
  { id := 1, gender := "male", sgroup := "world",
    subworld := ["onethird", "twothirds"] }

def client2 : Client := { id := 2, gender := "female", sgroup := "dev", subworld := [] }

def client3 : Client := { id := 3, gender := "male", sgroup := "dev", subworld := [] }

def client4 : Client := { id := 4, gender := "female", sgroup := "eval", subworld := [] }

def file1 : File :=
  { id := 1, client_id := 1, session_id := 1, speech_type := "p",
    shot_id := 1, device := "mobile", path := "w1", subworld := ["onethird"],
    protocol_purposes := [], tmodels := ["tm1"] }

def file2 : File :=
  { id := 2, client_id := 2, session_id := 1, speech_type := "p",
    shot_id := 1, device := "mobile", path := "d2p", subworld := [],
    protocol_purposes := [2], tmodels := [] }

def file3 : File :=
  { id := 3, client_id := 3, session_id := 1, speech_type := "p",
    shot_id := 1, device := "mobile", path := "d3p", subworld := [],
    protocol_purposes := [6], tmodels := [] }

def file4 : File :=
  { id := 4, client_id := 2, session_id := 1, speech_type := "p",
    shot_id := 2, device := "mobile", path := "d2e", subworld := [],
    protocol_purposes := [1], tmodels := [] }

def testStore : Store :=
  { clients := [client1, client2, client3, client4],
    files := [file1, file2, file3, file4],
    protocols := [⟨1, "female"⟩, ⟨2, "male"⟩],
    protocolPurposes :=
      [⟨1, 1, "dev", "enrol"⟩, ⟨2, 1, "dev", "probe"⟩,
       ⟨3, 1, "eval", "enrol"⟩, ⟨4, 1, "eval", "probe"⟩,
       ⟨5, 2, "dev", "enrol"⟩, ⟨6, 2, "dev", "probe"⟩,
       ⟨7, 2, "eval", "enrol"⟩, ⟨8, 2, "eval", "probe"⟩],
    subworlds := [⟨"onethird"⟩, ⟨"twothirds"⟩, ⟨"twothirds-subsampled"⟩],
    tmodels := [⟨"tm1", 1⟩] }

def testDb : Database := ⟨some testStore⟩

theorem ebind_ok_iff {α β : Type} {x : Except Err α} {f : α → Except Err β} {b : β} :
    ebind x f = .ok b ↔ ∃ a, x = .ok a ∧ f a = .ok b := by
  cases x with
  | error e => simp [ebind]
  | ok a => simp [ebind]

theorem contains_true_iff {α : Type} [BEq α] [LawfulBEq α] {l : List α} {a : α} :
    l.contains a = true ↔ a ∈ l :=
  List.elem_iff

theorem mem_of_mem_iffilter {α : Type} {c : α} {l : List α} {cond : Prop} [Decidable cond]
    {p : α → Bool} (h : c ∈ if cond then l.filter p else l) : c ∈ l := by
  split at h
  · exact List.mem_of_mem_filter h
  · exact h

theorem mem_of_mem_copyJoin {α β : Type} {c : α} {l : List α} {f : α → List β}
    (h : c ∈ l.flatMap fun x => (f x).map fun _ => x) : c ∈ l := by
  rw [List.mem_flatMap] at h
  obtain ⟨x, hx, hc⟩ := h
  rw [List.mem_map] at hc
  obtain ⟨_, _, rfl⟩ := hc
  exact hx

theorem mem_of_mem_ifcopy {α β : Type} {c : α} {l : List α} {cond : Prop} [Decidable cond]
    {f : α → List β} (h : c ∈ if cond then (l.flatMap fun x => (f x).map fun _ => x) else l) :
    c ∈ l := by
  split at h
  · exact mem_of_mem_copyJoin h
  · exact h

theorem check_validity_seq_ok {xs valid default : List String} {obj : String}
    (hne : xs ≠ []) (h : ∀ x ∈ xs, x ∈ valid) :
    check_validity (Arg.seq xs) obj valid default = .ok xs := by
  rw [check_validity, check_list, if_neg hne]
  have hfind : xs.find? (fun k => ! valid.contains k) = none := by
    rw [List.find?_eq_none]
    intro x hx
    have hc : valid.contains x = true := contains_true_iff.mpr (h x hx)
    simp [hc]
    exact h x hx
  rw [hfind]

/-- C6: the validator returns the supplied default unchanged on absent
or empty values; normalizes a (non-empty) scalar to a one-element
sequence and validates it; returns a non-empty all-valid sequence
unchanged; and on any element outside the allowed set raises an
InvalidArgument error carrying the offending value, the axis name and
the full allowed set. -/
theorem C6_check_validity (obj s : String) (valid default xs : List String) :
    (check_validity Arg.absent obj valid default = .ok default
      ∧ check_validity (Arg.seq []) obj valid default = .ok default
      ∧ check_validity (Arg.scalar "") obj valid default = .ok default)
  ∧ (s ≠ "" → check_validity (Arg.scalar s) obj valid default
        = check_validity (Arg.seq [s]) obj valid default)
  ∧ (xs ≠ [] → (∀ x ∈ xs, x ∈ valid) →
        check_validity (Arg.seq xs) obj valid default = .ok xs)
  ∧ ((∃ x ∈ xs, x ∉ valid) → ∃ k, k ∈ xs ∧ k ∉ valid ∧
        check_validity (Arg.seq xs) obj valid default
          = .error (.invalidArgument obj k valid)) := by
  refine ⟨⟨rfl, rfl, rfl⟩, ?_, ?_, ?_⟩
  · intro h
    simp [check_validity, h]
  · intro hne hall
    exact check_validity_seq_ok hne hall
  · rintro ⟨x, hx, hnv⟩
    have hne : xs ≠ [] := by rintro rfl; exact absurd hx (List.not_mem_nil x)
    have hsome : (xs.find? (fun k => ! valid.contains k)).isSome := by
      rw [List.find?_isSome]
      exact ⟨x, hx, by simpa using hnv⟩
    obtain ⟨k, hk⟩ := Option.isSome_iff_exists.mp hsome
    refine ⟨k, List.mem_of_find?_eq_some hk, ?_, ?_⟩
    · have hp := List.find?_some hk
      simpa using hp
    · show check_list xs obj valid default = _
      rw [check_list, if_neg hne, hk]

/-- Witness for C6 at concrete inputs: a bogus gender raises naming
the value, the axis and the allowed set; an absent value returns the
default; an all-valid sequence is returned unchanged. -/
theorem C6_check_validity_witness :
    check_validity (Arg.seq ["bogus"]) "gender" ["male", "female"] ["x"]
        = .error (.invalidArgument "gender" "bogus" ["male", "female"])
    ∧ check_validity Arg.absent "gender" ["male", "female"] ["x"] = .ok ["x"]
    ∧ check_validity (Arg.seq ["male", "female"]) "gender" ["male", "female"] ["x"]
        = .ok ["male", "female"] := by
  have h := C6_check_validity "gender" "m" ["male", "female"] ["x"] ["bogus"]
  obtain ⟨k, hk, _, he⟩ := h.2.2.2 ⟨"bogus", by decide, by decide⟩
  have hkb : k = "bogus" := by
    cases hk with
    | head => rfl
    | tail _ h2 => exact absurd h2 (List.not_mem_nil k)
  refine ⟨hkb ▸ he, h.1.1, ?_⟩
  exact (C6_check_validity "gender" "m" ["male", "female"] ["x"]
    ["male", "female"]).2.2.1 (by decide) (by decide)

/-- C9: `objects` treats a single non-iterable model id exactly as the
one-element list holding it (both normalize to the same tuple before
any branch runs). -/
theorem C9_scalar_model_id (db : Database) (protocol purposes : Arg) (m : Nat)
    (groups classes subworld gender : Arg) :
    db.objects protocol purposes (ModelIds.scalar m) groups classes subworld gender
      = db.objects protocol purposes (ModelIds.seq [m]) groups classes subworld gender := rfl

/-- C3: `reverse` reads its accumulator `retval` without initialising
it, so it fails (NameError) on every input — even the empty list and
stems that match stored files — while the intended behaviour
(`reverse_spec`, modelled from the spec) returns the matching ids, or
an empty list when nothing matches. -/
theorem C3_reverse_uninitialised :
    Database.reverse testDb ["w1"] = .error (.nameError "retval")
  ∧ Database.reverse testDb [] = .error (.nameError "retval")
  ∧ reverse_spec testDb ["w1"] = .ok [1]
  ∧ reverse_spec testDb ["nope"] = .ok [] :=
  ⟨rfl, rfl, rfl, rfl⟩

/-- C7: with no valid session, every query-bearing operation —
`clients`, `tclients`, `zclients`, `models`, `tmodels`, `objects`,
`tobjects`, `zobjects`, `paths`, `reverse` and the lookup helpers —
immediately raises the unavailable-store error (whose payload and
rendered message name the database and the expected storage location
and instruct the caller to create it and re-connect) instead of
issuing any query. -/
theorem C7_unavailable_store (db : Database) (h : db.is_valid = false) :
    (∀ p g sw ge, db.clients p g sw ge
        = .error (.unavailableStore INFO_name SQLITE_FILE))
  ∧ (∀ p g sw ge, db.tclients p g sw ge
        = .error (.unavailableStore INFO_name SQLITE_FILE))
  ∧ (∀ p g sw ge, db.zclients p g sw ge
        = .error (.unavailableStore INFO_name SQLITE_FILE))
  ∧ (∀ p g sw ge, db.models p g sw ge
        = .error (.unavailableStore INFO_name SQLITE_FILE))
  ∧ (∀ p g sw ge, db.tmodels p g sw ge
        = .error (.unavailableStore INFO_name SQLITE_FILE))
  ∧ (∀ p pu mi g c sw ge, db.objects p pu mi g c sw ge
        = .error (.unavailableStore INFO_name SQLITE_FILE))
  ∧ (∀ p mi g sw ge, db.tobjects p mi g sw ge
        = .error (.unavailableStore INFO_name SQLITE_FILE))
  ∧ (∀ p mi g sw ge, db.zobjects p mi g sw ge
        = .error (.unavailableStore INFO_name SQLITE_FILE))
  ∧ (∀ ids pre suff, db.paths ids pre suff
        = .error (.unavailableStore INFO_name SQLITE_FILE))
  ∧ (∀ ps, db.reverse ps = .error (.unavailableStore INFO_name SQLITE_FILE))
  ∧ db.subworlds = .error (.unavailableStore INFO_name SQLITE_FILE)
  ∧ db.subworld_names = .error (.unavailableStore INFO_name SQLITE_FILE)
  ∧ (∀ n, db.has_subworld n = .error (.unavailableStore INFO_name SQLITE_FILE))
  ∧ (∀ i, db.has_client_id i = .error (.unavailableStore INFO_name SQLITE_FILE))
  ∧ (∀ i, db.client i = .error (.unavailableStore INFO_name SQLITE_FILE))
  ∧ db.protocols = .error (.unavailableStore INFO_name SQLITE_FILE)
  ∧ db.protocol_names = .error (.unavailableStore INFO_name SQLITE_FILE)
  ∧ (∀ n, db.has_protocol n = .error (.unavailableStore INFO_name SQLITE_FILE))
  ∧ (∀ n, db.protocol n = .error (.unavailableStore INFO_name SQLITE_FILE))
  ∧ db.protocol_purposes = .error (.unavailableStore INFO_name SQLITE_FILE)
  ∧ (Err.unavailableStore INFO_name SQLITE_FILE).message
      = "Database mobio cannot be found at expected location mobio.sql3. " ++
          "Create it and then try re-connecting using Database.connect()" := by
  obtain ⟨sess⟩ := db
  cases sess with
  | some s => simp [Database.is_valid] at h
  | none =>
      exact ⟨fun _ _ _ _ => rfl, fun _ _ _ _ => rfl, fun _ _ _ _ => rfl,
        fun _ _ _ _ => rfl, fun _ _ _ _ => rfl, fun _ _ _ _ _ _ _ => rfl,
        fun _ _ _ _ _ => rfl, fun _ _ _ _ _ => rfl, fun _ _ _ => rfl,
        fun _ => rfl, rfl, rfl, fun _ => rfl, fun _ => rfl, fun _ => rfl,
        rfl, rfl, fun _ => rfl, fun _ => rfl, rfl, by decide⟩

/-- Witness for C7: a database whose storage artifact is missing
(session `none`) raises the unavailable-store error from a concrete
`objects` call. -/
theorem C7_unavailable_store_witness :
    Database.objects ⟨none⟩ Arg.absent Arg.absent ModelIds.none Arg.absent Arg.absent
        Arg.absent Arg.absent
      = .error (.unavailableStore INFO_name SQLITE_FILE) :=
  (C7_unavailable_store ⟨none⟩ rfl).2.2.2.2.2.1 Arg.absent Arg.absent ModelIds.none
    Arg.absent Arg.absent Arg.absent Arg.absent

/-- C4: whatever the argument combination, a successful `objects`
query returns each File at most once — the final `list(set(...))`
pass de-duplicates the branch union. -/
theorem C4_objects_nodup (db : Database) (protocol purposes : Arg) (model_ids : ModelIds)
    (groups classes subworld gender : Arg) (res : List File)
    (h : db.objects protocol purposes model_ids groups classes subworld gender = .ok res) :
    res.Nodup := by
  unfold Database.objects at h
  obtain ⟨s, _, h⟩ := ebind_ok_iff.mp h
  obtain ⟨_, _, h⟩ := ebind_ok_iff.mp h
  obtain ⟨_, _, h⟩ := ebind_ok_iff.mp h
  obtain ⟨_, _, h⟩ := ebind_ok_iff.mp h
  obtain ⟨_, _, h⟩ := ebind_ok_iff.mp h
  obtain ⟨_, _, h⟩ := ebind_ok_iff.mp h
  obtain ⟨_, _, h⟩ := ebind_ok_iff.mp h
  obtain ⟨_, _, h⟩ := ebind_ok_iff.mp h
  obtain ⟨_, _, h⟩ := ebind_ok_iff.mp h
  cases h
  exact List.nodup_dedup _

/-- Witness for C4: the default all-branch query on the concrete
store matches `file2` and `file3` through both probe branches, yet
returns each file once. -/
theorem C4_objects_nodup_witness :
    ([file1, file4, file2, file3] : List File).Nodup :=
  C4_objects_nodup testDb Arg.absent Arg.absent ModelIds.none Arg.absent Arg.absent
    Arg.absent Arg.absent [file1, file4, file2, file3] (by decide)

theorem ebind_ok_red {α β : Type} {a : α} {f : α → Except Err β} : ebind (.ok a) f = f a := rfl

theorem ebind_error_red {α β : Type} {e : Err} {f : α → Except Err β} :
    ebind (.error e) f = .error e := rfl

/-- Every client produced by `clients` with the groups axis set to the
single string `'world'` carries group `'world'`: the group filter is
applied and later axes only narrow further. -/
theorem clients_world_mem (db : Database) (p sw ge : Arg) (cs : List Client)
    (h : db.clients p (Arg.scalar "world") sw ge = .ok cs) :
    ∀ c ∈ cs, c.sgroup = "world" := by
  unfold Database.clients at h
  obtain ⟨s, _, h⟩ := ebind_ok_iff.mp h
  obtain ⟨p', _, h⟩ := ebind_ok_iff.mp h
  obtain ⟨g', hg, h⟩ := ebind_ok_iff.mp h
  obtain ⟨sw', _, h⟩ := ebind_ok_iff.mp h
  obtain ⟨ge', _, h⟩ := ebind_ok_iff.mp h
  have hw : check_validity (Arg.scalar "world") "group" group_choices [] = .ok ["world"] := rfl
  rw [hw] at hg
  have hg' : g' = ["world"] := (Except.ok.inj hg).symm
  subst hg'
  injection h with h
  subst h
  intro c hc
  rw [List.mem_insertionSort] at hc
  have hc2 := mem_of_mem_ifcopy (mem_of_mem_iffilter hc)
  rw [if_pos (by decide : (["world"] : List String) ≠ [])] at hc2
  rw [List.mem_filter] at hc2
  have := contains_true_iff.mp hc2.2
  simpa using this

theorem tclients_groups_irrelevant (db : Database) (p g1 g2 sw ge : Arg)
    (h1 : ∃ v, check_validity g1 "group" ["dev", "eval"] [] = .ok v)
    (h2 : ∃ v, check_validity g2 "group" ["dev", "eval"] [] = .ok v) :
    db.tclients p g1 sw ge = db.tclients p g2 sw ge := by
  obtain ⟨v1, hv1⟩ := h1
  obtain ⟨v2, hv2⟩ := h2
  unfold Database.tclients
  cases hpn : db.protocol_names with
  | error e => rfl
  | ok VP =>
      rw [ebind_ok_red, ebind_ok_red]
      cases hsn : db.subworld_names with
      | error e => rfl
      | ok VS =>
          rw [ebind_ok_red, ebind_ok_red]
          cases hp : check_validity p "protocol" VP [] with
          | error e => rfl
          | ok p' => rw [ebind_ok_red, ebind_ok_red, hv1, hv2, ebind_ok_red, ebind_ok_red]

theorem zclients_groups_irrelevant (db : Database) (p g1 g2 sw ge : Arg)
    (h1 : ∃ v, check_validity g1 "group" ["dev", "eval"] [] = .ok v)
    (h2 : ∃ v, check_validity g2 "group" ["dev", "eval"] [] = .ok v) :
    db.zclients p g1 sw ge = db.zclients p g2 sw ge := by
  obtain ⟨v1, hv1⟩ := h1
  obtain ⟨v2, hv2⟩ := h2
  unfold Database.zclients
  cases ha : db.assert_validity with
  | error e => rfl
  | ok s => rw [ebind_ok_red, ebind_ok_red, hv1, hv2, ebind_ok_red, ebind_ok_red]

/-- C2: `tclients` and `zclients` only ever return world-group
clients, for every store and every argument combination; their
`groups` argument is validated against dev/eval and then has no
effect on the result. -/
theorem C2_norm_clients_world (db : Database) :
    (∀ p g sw ge cs, db.tclients p g sw ge = .ok cs → ∀ c ∈ cs, c.sgroup = "world")
  ∧ (∀ p g sw ge cs, db.zclients p g sw ge = .ok cs → ∀ c ∈ cs, c.sgroup = "world")
  ∧ (∀ p g1 g2 sw ge, (∃ v, check_validity g1 "group" ["dev", "eval"] [] = .ok v) →
      (∃ v, check_validity g2 "group" ["dev", "eval"] [] = .ok v) →
      db.tclients p g1 sw ge = db.tclients p g2 sw ge)
  ∧ (∀ p g1 g2 sw ge, (∃ v, check_validity g1 "group" ["dev", "eval"] [] = .ok v) →
      (∃ v, check_validity g2 "group" ["dev", "eval"] [] = .ok v) →
      db.zclients p g1 sw ge = db.zclients p g2 sw ge) := by
  refine ⟨?_, ?_, tclients_groups_irrelevant db, zclients_groups_irrelevant db⟩
  · intro p g sw ge cs h
    unfold Database.tclients at h
    obtain ⟨_, _, h⟩ := ebind_ok_iff.mp h
    obtain ⟨_, _, h⟩ := ebind_ok_iff.mp h
    obtain ⟨p', _, h⟩ := ebind_ok_iff.mp h
    obtain ⟨_, _, h⟩ := ebind_ok_iff.mp h
    obtain ⟨sw', _, h⟩ := ebind_ok_iff.mp h
    obtain ⟨ge', _, h⟩ := ebind_ok_iff.mp h
    exact clients_world_mem db (Arg.seq p') (Arg.seq sw') (Arg.seq ge') cs h
  · intro p g sw ge cs h
    unfold Database.zclients at h
    obtain ⟨_, _, h⟩ := ebind_ok_iff.mp h
    obtain ⟨_, _, h⟩ := ebind_ok_iff.mp h
    exact clients_world_mem db p sw ge cs h

/-- Witness for C2 at the concrete store: the dev-groups and
eval-groups calls agree, and the returned T-norm client is a world
client. -/
theorem C2_norm_clients_world_witness :
    client1.sgroup = "world"
  ∧ Database.tclients testDb Arg.absent (Arg.seq ["dev"]) (Arg.scalar "onethird") Arg.absent
      = Database.tclients testDb Arg.absent (Arg.seq ["eval"]) (Arg.scalar "onethird")
          Arg.absent :=
  ⟨(C2_norm_clients_world testDb).1 Arg.absent Arg.absent (Arg.scalar "onethird") Arg.absent
      [client1] (by decide) client1 (by decide),
   (C2_norm_clients_world testDb).2.2.1 Arg.absent (Arg.seq ["dev"]) (Arg.seq ["eval"])
      (Arg.scalar "onethird") Arg.absent ⟨["dev"], by decide⟩ ⟨["eval"], by decide⟩⟩

/-- C10: `tmodels` validates its protocol and groups arguments and
then never uses them — any two valid protocol values and any two
valid groups values give the same result, with subworld and gender
fixed. -/
theorem C10_tmodels_independent (s : Store) (p1 p2 g1 g2 sw ge : Arg)
    (hp1 : ∃ v, check_validity p1 "protocol" s.protocol_names [] = .ok v)
    (hp2 : ∃ v, check_validity p2 "protocol" s.protocol_names [] = .ok v)
    (hg1 : ∃ v, check_validity g1 "group" ["dev", "eval"] [] = .ok v)
    (hg2 : ∃ v, check_validity g2 "group" ["dev", "eval"] [] = .ok v) :
    Database.tmodels ⟨some s⟩ p1 g1 sw ge = Database.tmodels ⟨some s⟩ p2 g2 sw ge := by
  obtain ⟨v1, hv1⟩ := hp1
  obtain ⟨v2, hv2⟩ := hp2
  obtain ⟨w1, hw1⟩ := hg1
  obtain ⟨w2, hw2⟩ := hg2
  unfold Database.tmodels
  have ha : Database.assert_validity ⟨some s⟩ = .ok s := rfl
  have hpn : Database.protocol_names ⟨some s⟩ = .ok s.protocol_names := rfl
  have hsn : Database.subworld_names ⟨some s⟩ = .ok s.subworld_names := rfl
  simp only [ha, hpn, hsn, ebind_ok_red, hv1, hv2, hw1, hw2]

/-- Witness for C10: two calls differing in both protocol and groups
coincide on the concrete store. -/
theorem C10_tmodels_independent_witness :
    Database.tmodels ⟨some testStore⟩ (Arg.scalar "male") (Arg.seq ["dev"]) Arg.absent
        Arg.absent
      = Database.tmodels ⟨some testStore⟩ (Arg.scalar "female") (Arg.seq ["eval"]) Arg.absent
          Arg.absent :=
  C10_tmodels_independent testStore (Arg.scalar "male") (Arg.scalar "female")
    (Arg.seq ["dev"]) (Arg.seq ["eval"]) Arg.absent Arg.absent
    ⟨["male"], by decide⟩ ⟨["female"], by decide⟩ ⟨["dev"], by decide⟩ ⟨["eval"], by decide⟩

/-- C8: narrowing the groups axis to just `'world'` yields a subset
of the unrestricted (default full-axis) result: the world branch runs
identically in both queries and the default adds only further
branches. -/
theorem C8_world_subset (db : Database) (protocol purposes : Arg) (mi : ModelIds)
    (classes subworld gender : Arg) (r1 r2 : List File)
    (h1 : db.objects protocol purposes mi (Arg.seq ["world"]) classes subworld gender = .ok r1)
    (h2 : db.objects protocol purposes mi Arg.absent classes subworld gender = .ok r2) :
    ∀ f ∈ r1, f ∈ r2 := by
  unfold Database.objects at h1 h2
  obtain ⟨s, ha, h1⟩ := ebind_ok_iff.mp h1
  rw [ha, ebind_ok_red] at h2
  obtain ⟨VP, hvp, h1⟩ := ebind_ok_iff.mp h1
  rw [hvp, ebind_ok_red] at h2
  obtain ⟨VS, hvs, h1⟩ := ebind_ok_iff.mp h1
  rw [hvs, ebind_ok_red] at h2
  obtain ⟨p', hp, h1⟩ := ebind_ok_iff.mp h1
  rw [hp, ebind_ok_red] at h2
  obtain ⟨pu', hpu, h1⟩ := ebind_ok_iff.mp h1
  rw [hpu, ebind_ok_red] at h2
  have hw : check_validity (Arg.seq ["world"]) "group" group_choices group_choices
      = .ok ["world"] := rfl
  rw [hw, ebind_ok_red] at h1
  have habs : check_validity Arg.absent "group" group_choices group_choices
      = .ok group_choices := rfl
  rw [habs, ebind_ok_red] at h2
  obtain ⟨c', hc, h1⟩ := ebind_ok_iff.mp h1
  rw [hc, ebind_ok_red] at h2
  obtain ⟨sw', hsw, h1⟩ := ebind_ok_iff.mp h1
  rw [hsw, ebind_ok_red] at h2
  obtain ⟨ge', hge, h1⟩ := ebind_ok_iff.mp h1
  rw [hge, ebind_ok_red] at h2
  injection h1 with h1
  injection h2 with h2
  subst h1
  subst h2
  intro f hf
  unfold objectsCore at hf ⊢
  rw [List.mem_dedup] at hf ⊢
  have c1 : (["world"] : List String).contains "world" = true := rfl
  have c2 : (["world"] : List String).contains "dev" = false := rfl
  have c3 : (["world"] : List String).contains "eval" = false := rfl
  have c4 : group_choices.contains "world" = true := rfl
  rw [c1, c2, c3] at hf
  simp only [Bool.false_or, if_pos rfl] at hf
  rw [if_neg (by decide : ¬ (false : Bool) = true), List.append_nil] at hf
  rw [c4, if_pos rfl]
  exact List.mem_append_left _ hf

/-- Witness for C8: on the concrete store the world-only query
returns the world file, which the unrestricted query also returns. -/
theorem C8_world_subset_witness :
    file1 ∈ ([file1, file4, file2, file3] : List File) :=
  C8_world_subset testDb Arg.absent Arg.absent ModelIds.none Arg.absent Arg.absent Arg.absent
    [file1] [file1, file4, file2, file3] (by decide) (by decide) file1 (by decide)

theorem ok_congr {α : Type} {a b : α} (h : a = b) : (Except.ok a : Except Err α) = .ok b := by
  rw [h]

theorem flatMap_congr_mem {α β : Type} {l : List α} {f g : α → List β}
    (h : ∀ a ∈ l, f a = g a) : l.flatMap f = l.flatMap g := by
  induction l with
  | nil => rfl
  | cons a l ih =>
      rw [List.flatMap_cons, List.flatMap_cons, h a (List.mem_cons_self a l),
        ih fun x hx => h x (List.mem_cons_of_mem a hx)]

/-- When no two files share an id, filtering on one id returns the
singleton (or nothing) that `find?` locates. -/
theorem filter_id_eq_find? {files : List File} (h : (files.map File.id).Nodup) (p : Nat) :
    files.filter (fun k => k.id == p)
      = (match files.find? (fun k => k.id == p) with
         | some k => [k]
         | none => []) := by
  induction files with
  | nil => rfl
  | cons a l ih =>
      rw [List.map_cons, List.nodup_cons] at h
      cases hb : (a.id == p) with
      | true =>
          have hap : a.id = p := by simpa using hb
          rw [List.filter_cons_of_pos (by simpa using hb),
            List.find?_cons_of_pos _ (by simpa using hb)]
          have hnil : l.filter (fun k => k.id == p) = [] := by
            rw [List.filter_eq_nil_iff]
            intro k hk hkp
            have hkid : k.id = p := by simpa using hkp
            exact h.1 (List.mem_map.mpr ⟨k, hk, by rw [hkid, hap]⟩)
          rw [hnil]
      | false =>
          rw [List.filter_cons_of_neg (by simpa using hb),
            List.find?_cons_of_neg _ (by simpa using hb)]
          exact ih h.2

/-- C5: on a store whose file ids are unique, `paths` emits — in the
order of the input id sequence and preserving its duplicates — the
constructed path of the file matching each requested id, and nothing
(with no error) for an id matching no file. -/
theorem C5_paths_input_order (s : Store) (hids : (s.files.map File.id).Nodup)
    (ids : List Nat) (pre suff : String) :
    Database.paths ⟨some s⟩ ids pre suff
      = .ok (ids.flatMap fun p =>
          match s.files.find? (fun k => k.id == p) with
          | some k => [k.make_path pre suff]
          | none => []) := by
  unfold Database.paths
  rw [show Database.assert_validity ⟨some s⟩ = .ok s from rfl, ebind_ok_red]
  apply ok_congr
  apply flatMap_congr_mem
  intro p hp
  rw [List.filter_filter]
  have hpred : ∀ k ∈ s.files,
      ((k.id == p) && ids.contains k.id) = (k.id == p) := by
    intro k _
    cases hb : (k.id == p) with
    | true =>
        have : k.id = p := by simpa using hb
        rw [Bool.true_and]
        exact contains_true_iff.mpr (this ▸ hp)
    | false => rw [Bool.false_and]
  rw [List.filter_congr hpred, filter_id_eq_find? hids p]
  cases s.files.find? (fun k => k.id == p) with
  | none => rfl
  | some k => rfl

/-- Witness for C5: requesting ids `[2, 99, 2]` where id 99 matches
nothing returns exactly the two paths for id 2, in input order. -/
theorem C5_paths_input_order_witness :
    Database.paths ⟨some testStore⟩ [2, 99, 2] "p/" ".wav" = .ok ["p/d2p.wav", "p/d2p.wav"] :=
  (C5_paths_input_order testStore (by decide) [2, 99, 2] "p/" ".wav").trans (by decide)

/-- With a singleton model-id tuple, every file in the impostor probe
branch has a client id different from that model id. -/
theorem impostorBranch_excludes (s : Store) (p g ge : List String) (m : Nat) (f : File)
    (hf : f ∈ impostorBranch s p g ge [m]) : f.client_id ≠ m := by
  simp only [impostorBranch] at hf
  rw [List.mem_insertionSort] at hf
  have hc : (([m] : List Nat).length == 1) = true := rfl
  rw [if_pos hc] at hf
  rw [List.mem_map] at hf
  obtain ⟨r, hr, rfl⟩ := hf
  rw [List.mem_filter] at hr
  have hp := hr.2
  simp at hp
  exact hp

/-- With zero or at least two model ids, the impostor probe branch
applies no client-id exclusion: it coincides with the branch for an
empty model-id tuple. -/
theorem impostorBranch_len_ne_one (s : Store) (p g ge : List String) (mids : List Nat)
    (h : mids.length ≠ 1) : impostorBranch s p g ge mids = impostorBranch s p g ge [] := by
  have h1 : (mids.length == 1) = false := by
    cases hb : mids.length == 1 with
    | false => rfl
    | true => exact absurd (by simpa using hb) h
  simp only [impostorBranch, h1]
  rw [if_neg (by decide : ¬ ((false : Bool) = true)),
    if_neg (by decide : ¬ ((([] : List Nat).length == 1) = true))]

/-- For probe/impostor-only queries over dev/eval groups,
`objectsCore` with a non-singleton model-id tuple equals the core
with no model ids at all. -/
theorem objectsCore_impostor_no_excl (s : Store) (p sw ge gs : List String)
    (hgw : gs.contains "world" = false) (mids : List Nat) (hlen : mids.length ≠ 1) :
    objectsCore s p ["probe"] gs ["impostor"] sw ge mids
      = objectsCore s p ["probe"] gs ["impostor"] sw ge [] := by
  unfold objectsCore
  rw [impostorBranch_len_ne_one s p gs ge mids hlen]
  rw [hgw]
  rw [show (["probe"] : List String).contains "enrol" = false from rfl,
    show (["impostor"] : List String).contains "client" = false from rfl]
  have hf : ¬ ((false : Bool) = true) := by decide
  rw [if_neg hf, if_neg hf, if_neg hf, if_neg hf, if_neg hf, if_neg hf]

/-- C1 counterexample: with purposes, classes or groups merely
*containing* the stated values, a file of the claimed model's client
is still returned — through the client probe branch, the enrol
branch, or the world branch — so the claim as stated fails. -/
theorem C1_counterexample :
    (Database.objects testDb Arg.absent (Arg.seq ["probe"]) (ModelIds.seq [2]) (Arg.seq ["dev"])
        (Arg.seq ["client", "impostor"]) Arg.absent Arg.absent = .ok [file2, file3]
      ∧ file2.client_id = 2)
  ∧ (Database.objects testDb Arg.absent (Arg.seq ["enrol", "probe"]) (ModelIds.seq [2])
        (Arg.seq ["dev"]) (Arg.seq ["impostor"]) Arg.absent Arg.absent = .ok [file4, file3]
      ∧ file4.client_id = 2)
  ∧ (Database.objects testDb Arg.absent (Arg.seq ["probe"]) (ModelIds.seq [1])
        (Arg.seq ["dev", "world"]) (Arg.seq ["impostor"]) Arg.absent Arg.absent
          = .ok [file1, file2, file3]
      ∧ file1.client_id = 1) := by
  decide

/-- C1 (amended): for `objects` with purposes exactly `{probe}`,
classes exactly `{impostor}` and groups a non-empty subset of
{dev, eval}: a single model id `m` excludes every file whose
client id equals `m` from the result, while a model-id tuple of
length ≠ 1 triggers no exclusion at all (the query equals the one
with no model ids). -/
theorem C1_impostor_exclusion (s : Store) (protocol subworld gender : Arg) (gs : List String)
    (hne : gs ≠ []) (hgs : ∀ x ∈ gs, x = "dev" ∨ x = "eval") (m : Nat)
    (mids : List Nat) (hlen : mids.length ≠ 1) :
    (∀ res f, Database.objects ⟨some s⟩ protocol (Arg.seq ["probe"]) (ModelIds.seq [m])
        (Arg.seq gs) (Arg.seq ["impostor"]) subworld gender = .ok res →
      f ∈ res → f.client_id ≠ m)
  ∧ Database.objects ⟨some s⟩ protocol (Arg.seq ["probe"]) (ModelIds.seq mids)
        (Arg.seq gs) (Arg.seq ["impostor"]) subworld gender
      = Database.objects ⟨some s⟩ protocol (Arg.seq ["probe"]) ModelIds.none
        (Arg.seq gs) (Arg.seq ["impostor"]) subworld gender := by
  have hvalid : ∀ x ∈ gs, x ∈ group_choices := by
    intro x hx
    rcases hgs x hx with rfl | rfl <;> decide
  have hgw : gs.contains "world" = false := by
    cases hcw : gs.contains "world" with
    | false => rfl
    | true =>
        rcases hgs "world" (contains_true_iff.mp hcw) with h | h <;> exact absurd h (by decide)
  constructor
  · intro res f hok hf
    unfold Database.objects at hok
    rw [show Database.assert_validity ⟨some s⟩ = .ok s from rfl, ebind_ok_red,
      show Database.protocol_names ⟨some s⟩ = .ok s.protocol_names from rfl, ebind_ok_red,
      show Database.subworld_names ⟨some s⟩ = .ok s.subworld_names from rfl,
      ebind_ok_red] at hok
    obtain ⟨p', hp, hok⟩ := ebind_ok_iff.mp hok
    rw [show check_validity (Arg.seq ["probe"]) "purpose" purpose_choices purpose_choices
          = .ok ["probe"] from rfl, ebind_ok_red,
      check_validity_seq_ok hne hvalid, ebind_ok_red,
      show check_validity (Arg.seq ["impostor"]) "class" ["client", "impostor"]
          ["client", "impostor"] = .ok ["impostor"] from rfl, ebind_ok_red] at hok
    obtain ⟨sw', hsw, hok⟩ := ebind_ok_iff.mp hok
    obtain ⟨ge', hge, hok⟩ := ebind_ok_iff.mp hok
    injection hok with hok
    subst hok
    unfold objectsCore at hf
    rw [List.mem_dedup, hgw] at hf
    rw [if_neg (by decide : ¬ ((false : Bool) = true)), List.nil_append] at hf
    rw [show (["probe"] : List String).contains "enrol" = false from rfl,
      show (["probe"] : List String).contains "probe" = true from rfl,
      show (["impostor"] : List String).contains "client" = false from rfl,
      show (["impostor"] : List String).contains "impostor" = true from rfl] at hf
    rw [if_neg (by decide : ¬ ((false : Bool) = true)),
      if_neg (by decide : ¬ ((false : Bool) = true)),
      if_pos (rfl : (true : Bool) = true), if_pos (rfl : (true : Bool) = true),
      List.nil_append, List.nil_append] at hf
    split at hf
    · exact impostorBranch_excludes s p' gs ge' m f hf
    · exact absurd hf (List.not_mem_nil f)
  · unfold Database.objects
    simp only [show Database.assert_validity ⟨some s⟩ = .ok s from rfl,
      show Database.protocol_names ⟨some s⟩ = .ok s.protocol_names from rfl,
      show Database.subworld_names ⟨some s⟩ = .ok s.subworld_names from rfl, ebind_ok_red]
    cases hp : check_validity protocol "protocol" s.protocol_names s.protocol_names with
    | error e => rfl
    | ok p' =>
        simp only [ebind_ok_red,
          show check_validity (Arg.seq ["probe"]) "purpose" purpose_choices purpose_choices
            = .ok ["probe"] from rfl,
          check_validity_seq_ok hne hvalid,
          show check_validity (Arg.seq ["impostor"]) "class" ["client", "impostor"]
            ["client", "impostor"] = .ok ["impostor"] from rfl]
        cases hsw : check_validity subworld "subworld" s.subworld_names [] with
        | error e => rfl
        | ok sw' =>
            simp only [ebind_ok_red]
            cases hge : check_validity gender "gender" gender_choices [] with
            | error e => rfl
            | ok ge' =>
                simp only [ebind_ok_red]
                apply ok_congr
                show objectsCore s p' ["probe"] gs ["impostor"] sw' ge' mids
                  = objectsCore s p' ["probe"] gs ["impostor"] sw' ge' []
                exact objectsCore_impostor_no_excl s p' sw' ge' gs hgw mids hlen

/-- Witness for C1 (amended): with the single model id 3 the dev
impostor query keeps only the other client's probe file, and the
two-id query [2, 3] equals the query with no model ids. -/
theorem C1_impostor_exclusion_witness :
    file2.client_id ≠ 3
  ∧ Database.objects testDb Arg.absent (Arg.seq ["probe"]) (ModelIds.seq [2, 3])
        (Arg.seq ["dev"]) (Arg.seq ["impostor"]) Arg.absent Arg.absent
      = Database.objects testDb Arg.absent (Arg.seq ["probe"]) ModelIds.none
          (Arg.seq ["dev"]) (Arg.seq ["impostor"]) Arg.absent Arg.absent := by
  have h := C1_impostor_exclusion testStore Arg.absent Arg.absent Arg.absent ["dev"]
    (by decide) (by decide) 3 [2, 3] (by decide)
  exact ⟨h.1 [file2] file2 (by decide) (by decide), h.2⟩
